import Mathlib

/-!
Behavioural model of `script.js` and `theme.js`

A shallow embedding of the page scripts: the image slider, the stat counters,
the contact-form submit handler, the load-time wiring and the theme manager.
The DOM, the key-value store and the media query are explicit state; a
JavaScript exception is an explicit `threw` outcome that keeps the mutations
made before the throw.
-/

namespace OnlineSystem

/-- Result of running a piece of JavaScript: it either completes normally or
throws; both carry the state reached (mutations are never rolled back). -/
inductive Outcome (σ : Type) where
  | ok (s : σ)
  | threw (s : σ)
  deriving Repr, DecidableEq

namespace Outcome

/-- State reached, whether or not an exception was raised. -/
def state {σ : Type} : Outcome σ → σ
  | ok s => s
  | threw s => s

/-- True when the run raised an exception. -/
def raised {σ : Type} : Outcome σ → Bool
  | ok _ => false
  | threw _ => true

/-- Sequencing of statements: a throw skips everything after it. -/
def andThen {σ : Type} (o : Outcome σ) (f : σ → Outcome σ) : Outcome σ :=
  match o with
  | ok s => f s
  | threw s => threw s

end Outcome

/-! ## Image slider (`script.js`, lines 192-230) -/

/-- Module state of the slider: `currentSlideIndex` and, for every element of
the `slides` and `indicators` node lists, whether it carries class `active`. -/
structure Slider where
  currentSlideIndex : Int
  slides : List Bool
  indicators : List Bool
  deriving Repr, DecidableEq

/-- The constant `totalSlides = slides.length`. -/
def Slider.totalSlides (s : Slider) : Int := s.slides.length

/-- Embedding of `showSlide(index)`: clear `active` everywhere, then add it to
`slides[index]` and `indicators[index]`; indexing outside a node list yields
`undefined`, whose `.classList` access throws. -/
def showSlide (index : Int) (s : Slider) : Outcome Slider :=
  let s1 : Slider :=
    { s with slides := s.slides.map (fun _ => false),
             indicators := s.indicators.map (fun _ => false) }
  if 0 ≤ index ∧ index < s1.slides.length then
    let s2 : Slider := { s1 with slides := s1.slides.set index.toNat true }
    if index < s2.indicators.length then
      Outcome.ok { s2 with indicators := s2.indicators.set index.toNat true }
    else Outcome.threw s2
  else Outcome.threw s1

/-- Embedding of `changeSlide(direction)`. -/
def changeSlide (direction : Int) (s : Slider) : Outcome Slider :=
  let i := s.currentSlideIndex + direction
  let i :=
    if i ≥ s.totalSlides then 0
    else if i < 0 then s.totalSlides - 1
    else i
  showSlide i { s with currentSlideIndex := i }

/-- Embedding of `currentSlide(index)` (one-based request). -/
def currentSlide (index : Int) (s : Slider) : Outcome Slider :=
  let i := index - 1
  showSlide i { s with currentSlideIndex := i }

/-- Successive `changeSlide` calls; a throwing call does not stop later calls
(each is its own timer tick or click) and its mutations persist. -/
def changeSlides (ds : List Int) (s : Slider) : Slider :=
  ds.foldl (fun st d => (changeSlide d st).state) s

/-! ## Theme manager (`theme.js`) -/

/-- The browser key-value store, restricted to key `preferred-theme`. A read
or a write may throw (storage disabled, quota exceeded). -/
structure Storage where
  canRead : Bool
  canWrite : Bool
  item : Option String
  deriving Repr, DecidableEq

/-- Model of `localStorage.getItem('preferred-theme')`: `none` when the call
throws, otherwise the stored value (`null` is the inner `none`). -/
def Storage.getItem (st : Storage) : Option (Option String) :=
  if st.canRead then some st.item else none

/-- Model of `localStorage.setItem('preferred-theme', v)`: `none` when the call
throws, otherwise the updated store. -/
def Storage.setItem (st : Storage) (v : String) : Option Storage :=
  if st.canWrite then some { st with item := some v } else none

/-- Everything the theme code reads or writes. `matchMedia` is `none` when
`window.matchMedia` is undefined and `some b` when the dark-scheme query
reports `matches = b`. -/
structure ThemeEnv where
  dataTheme : Option String
  transitioning : Bool
  hasToggle : Bool
  ariaLabel : Option String
  hasIcon : Bool
  iconMoon : Bool
  iconSun : Bool
  storage : Storage
  matchMedia : Option Bool
  mediaCanListen : Bool
  clickWired : Bool
  watching : Bool
  warnings : List String
  timers : List Nat
  deriving Repr, DecidableEq

/-- JavaScript `!a` for a nullable string `a`: `null` and the empty string are
falsy. -/
def jsNot (a : Option String) : Bool :=
  match a with
  | some s => s = ""
  | none => true

/-- JavaScript `a || b` for a nullable string `a`: `null` and the empty string
are falsy. -/
def jsOr (a : Option String) (b : String) : String :=
  match a with
  | some s => if s = "" then b else s
  | none => b

/-- Embedding of `getSavedTheme()`: the stored value, or `null` plus a console
warning when the read throws. -/
def getSavedTheme (e : ThemeEnv) : Option String × ThemeEnv :=
  match e.storage.getItem with
  | some v => (v, e)
  | none => (none, { e with warnings := e.warnings ++ ["localStorage not available:"] })

/-- Embedding of `getSystemPreference()`. -/
def getSystemPreference (e : ThemeEnv) : String :=
  match e.matchMedia with
  | some true => "dark"
  | _ => "light"

/-- Embedding of `updateIcon(theme)`: returns at once without an icon; the
`themeToggle.setAttribute` call throws when the toggle element is missing. -/
def updateIcon (theme : String) (e : ThemeEnv) : Outcome ThemeEnv :=
  if !e.hasIcon then Outcome.ok e
  else if theme = "dark" then
    let e1 := { e with iconMoon := false, iconSun := true }
    if e1.hasToggle then Outcome.ok { e1 with ariaLabel := some "Switch to light mode" }
    else Outcome.threw e1
  else
    let e1 := { e with iconSun := false, iconMoon := true }
    if e1.hasToggle then Outcome.ok { e1 with ariaLabel := some "Switch to dark mode" }
    else Outcome.threw e1

/-- Embedding of `setTheme(theme, animate)`. -/
def setTheme (theme : String) (animate : Bool) (e : ThemeEnv) : Outcome ThemeEnv :=
  let e1 := if animate then { e with transitioning := true } else e
  let e2 := { e1 with dataTheme := some theme }
  (updateIcon theme e2).andThen fun e3 =>
    let e4 :=
      match e3.storage.setItem theme with
      | some st => { e3 with storage := st }
      | none => { e3 with warnings := e3.warnings ++ ["Could not save theme preference:"] }
    Outcome.ok (if animate then { e4 with timers := e4.timers ++ [300] } else e4)

/-- Embedding of `toggleTheme()`. -/
def toggleTheme (e : ThemeEnv) : Outcome ThemeEnv :=
  let currentTheme := jsOr e.dataTheme "light"
  let newTheme := if currentTheme = "light" then "dark" else "light"
  setTheme newTheme true e

/-- Embedding of `watchSystemPreference()`: a listener is registered when
`window.matchMedia` exists and the query offers `addEventListener` or
`addListener`. -/
def watchSystemPreference (e : ThemeEnv) : Outcome ThemeEnv :=
  match e.matchMedia with
  | none => Outcome.ok e
  | some _ => Outcome.ok (if e.mediaCanListen then { e with watching := true } else e)

/-- Body of the listener registered by `watchSystemPreference()`. -/
def systemChangeListener (isDark : Bool) (e : ThemeEnv) : Outcome ThemeEnv :=
  let r := getSavedTheme e
  if jsNot r.1 then setTheme (if isDark then "dark" else "light") true r.2
  else Outcome.ok r.2

/-- A change of the system colour scheme: the query now reports `isDark`, and
the listener runs if one was registered. -/
def dispatchSystemChange (isDark : Bool) (e : ThemeEnv) : Outcome ThemeEnv :=
  let e1 := { e with matchMedia := e.matchMedia.map (fun _ => isDark) }
  if e1.watching then systemChangeListener isDark e1 else Outcome.ok e1

/-- A click on the toggle control: runs `toggleTheme()` if `init()` wired it. -/
def clickToggle (e : ThemeEnv) : Outcome ThemeEnv :=
  if e.clickWired then toggleTheme e else Outcome.ok e

/-- Embedding of `init()`. -/
def init (e : ThemeEnv) : Outcome ThemeEnv :=
  let r := getSavedTheme e
  let preferredTheme := jsOr r.1 (getSystemPreference r.2)
  (setTheme preferredTheme false r.2).andThen fun e2 =>
    let e3 := if e2.hasToggle then { e2 with clickWired := true } else e2
    watchSystemPreference e3

/-- Embedding of the inline function at the end of `theme.js`: neither the
storage read nor the `matchMedia` call is guarded. -/
def prePaint (e : ThemeEnv) : Outcome ThemeEnv :=
  match e.storage.getItem with
  | none => Outcome.threw e
  | some savedTheme =>
    match e.matchMedia with
    | none => Outcome.threw e
    | some b =>
      let systemPreference := if b then "dark" else "light"
      Outcome.ok { e with dataTheme := some (jsOr savedTheme systemPreference) }

/-- A fresh environment with every flag off, nothing stored and no listener;
used to build concrete pages. -/
def ThemeEnv.blank : ThemeEnv :=
  { dataTheme := none, transitioning := false, hasToggle := true, ariaLabel := none,
    hasIcon := true, iconMoon := true, iconSun := false,
    storage := { canRead := true, canWrite := true, item := none },
    matchMedia := some false, mediaCanListen := true, clickWired := false,
    watching := false, warnings := [], timers := [] }

/-! ## Contact form (`script.js`, lines 44-104) -/

/-- The submit control of the contact form. -/
structure SubmitBtn where
  textContent : String
  disabled : Bool
  deriving Repr, DecidableEq

/-- Which literal block `formMessage.innerHTML` holds. -/
inductive MessageHtml where
  | unset
  | success
  | failure
  deriving Repr, DecidableEq

/-- The `#form-message` container. -/
structure FormMessage where
  innerHTML : MessageHtml
  display : String
  deriving Repr, DecidableEq

/-- State touched by the submit handler. `fields` are the current values of
the form controls and `defaults` the values `reset()` restores; `hideTimers`
are the delays of the pending timeouts that hide the message. -/
structure FormPage where
  submitBtn : Option SubmitBtn
  formMessage : Option FormMessage
  fields : List String
  defaults : List String
  hideTimers : List Nat
  defaultPrevented : Bool
  deriving Repr, DecidableEq

/-- How the awaited `fetch` ends: a response with its `ok` flag, or a
rejection. -/
inductive FetchResult where
  | response (ok : Bool)
  | rejected
  deriving Repr, DecidableEq

/-- The `catch` block followed by the `finally` block. -/
def submitFailure (originalText : String) (m : FormMessage) (s : FormPage) : FormPage :=
  { s with formMessage := some { m with innerHTML := MessageHtml.failure, display := "block" },
           submitBtn := some { textContent := originalText, disabled := false } }

/-- The `response.ok` branch followed by the `finally` block. -/
def submitSuccess (originalText : String) (m : FormMessage) (s : FormPage) : FormPage :=
  { s with formMessage := some { m with innerHTML := MessageHtml.success, display := "block" },
           fields := s.defaults,
           hideTimers := s.hideTimers ++ [10000],
           submitBtn := some { textContent := originalText, disabled := false } }

/-- Embedding of the `submit` listener of the contact form, run from the event
to the end of the `finally` block, for a given result of the request. The
statements before `try` throw when the submit control or the message container
is missing. -/
def submitHandler (r : FetchResult) (s : FormPage) : Outcome FormPage :=
  let s0 := { s with defaultPrevented := true }
  match s0.submitBtn with
  | none => Outcome.threw s0
  | some btn =>
    let originalText := btn.textContent
    let s1 := { s0 with submitBtn := some { textContent := "Enviando...", disabled := true } }
    match s1.formMessage with
    | none => Outcome.threw s1
    | some m =>
      let m1 := { m with display := "none" }
      let s2 := { s1 with formMessage := some m1 }
      match r with
      | FetchResult.response true => Outcome.ok (submitSuccess originalText m1 s2)
      | FetchResult.response false => Outcome.ok (submitFailure originalText m1 s2)
      | FetchResult.rejected => Outcome.ok (submitFailure originalText m1 s2)

/-! ## Load-time wiring (`script.js`, top level) -/

/-- The `.nav-menu` element: whether it has class `active`, and the number of
links inside it (the elements `.nav-menu a` selects). -/
structure NavMenu where
  active : Bool
  links : Nat
  deriving Repr, DecidableEq

/-- The elements the top-level statements of `script.js` look up. An optional
element is `none` when its selector matches nothing; for the hamburger the
payload is whether the element has class `active`, for the navbar its
`boxShadow` style. Menu links exist only inside a menu. -/
structure Page where
  hamburger : Option Bool
  navMenu : Option NavMenu
  anchors : Nat
  navbar : Option String
  contactForm : Bool
  revealTargets : Nat
  statsSection : Bool
  floatingCards : Nat
  scrollY : Int
  deriving Repr, DecidableEq

/-- Listeners and observers registered so far by the top-level code. -/
structure Wiring where
  hamburgerClick : Bool
  navLinkClicks : Nat
  anchorClicks : Nat
  scroll : Bool
  submit : Bool
  revealObserved : Nat
  statsObserved : Bool
  cardHovers : Nat
  loadListener : Bool
  domReadyListener : Bool
  sliderState : Bool
  deriving Repr, DecidableEq

/-- Nothing registered yet. -/
def Wiring.none : Wiring :=
  { hamburgerClick := false, navLinkClicks := 0, anchorClicks := 0, scroll := false,
    submit := false, revealObserved := 0, statsObserved := false, cardHovers := 0,
    loadListener := false, domReadyListener := false, sliderState := false }

/-- Embedding of the top-level statements of `script.js`, in source order. The
calls `hamburger.addEventListener` (line 5) and `contactForm.addEventListener`
(line 48) dereference the looked-up element without a test; the stats observer
(line 154) is guarded by `if (statsSection)`. -/
def loadScript (p : Page) : Outcome Wiring :=
  let w := Wiring.none
  match p.hamburger with
  | none => Outcome.threw w
  | some _ =>
    let w := { w with hamburgerClick := true }
    let w := { w with navLinkClicks := match p.navMenu with
                                       | some m => m.links
                                       | none => 0 }
    let w := { w with anchorClicks := p.anchors }
    let w := { w with scroll := true }
    if !p.contactForm then Outcome.threw w
    else
      let w := { w with submit := true }
      let w := { w with revealObserved := p.revealTargets }
      let w := if p.statsSection then { w with statsObserved := true } else w
      let w := { w with cardHovers := p.floatingCards }
      let w := { w with loadListener := true, domReadyListener := true }
      Outcome.ok { w with sliderState := true }

/-- Embedding of the hamburger `click` listener (lines 5-8). -/
def hamburgerClick (p : Page) : Outcome Page :=
  match p.hamburger with
  | none => Outcome.threw p
  | some a =>
    let p1 := { p with hamburger := some (!a) }
    match p1.navMenu with
    | none => Outcome.threw p1
    | some m => Outcome.ok { p1 with navMenu := some { m with active := !m.active } }

/-- Embedding of the `scroll` listener (lines 33-42). -/
def scrollHandler (p : Page) : Outcome Page :=
  match p.navbar with
  | none => Outcome.threw p
  | some _ =>
    if p.scrollY > 50 then Outcome.ok { p with navbar := some "0 2px 20px rgba(52, 73, 94, 0.12)" }
    else Outcome.ok { p with navbar := some "0 2px 20px rgba(52, 73, 94, 0.08)" }

/-! ## Stat counters (`script.js`, lines 129-150)

Strings are lists of characters. Numbers are IEEE 754 doubles: a finite double
is a multiple `m / 2 ^ 1074` whose numerator has at most 53 significant bits,
and every arithmetic result is rounded to the nearest such value, ties to
even. -/

/-- White space skipped by `parseInt` before the sign: the ECMAScript
WhiteSpace and LineTerminator code points (tab, line feed, vertical tab, form
feed, carriage return, space, no-break space, U+1680, U+2000 to U+200A, line
and paragraph separator, U+202F, U+205F, U+3000, byte-order mark). -/
def isWhiteSpace (c : Char) : Bool :=
  c.toNat = 9 || c.toNat = 10 || c.toNat = 11 || c.toNat = 12 || c.toNat = 13 ||
    c.toNat = 32 || c.toNat = 160 || c.toNat = 5760 ||
    (8192 ≤ c.toNat && c.toNat ≤ 8202) || c.toNat = 8232 || c.toNat = 8233 ||
    c.toNat = 8239 || c.toNat = 8287 || c.toNat = 12288 || c.toNat = 65279

/-- Value of a character as a digit in the given radix, if it is one. -/
def digitValue (radix : Nat) (c : Char) : Option Nat :=
  let v : Option Nat :=
    if 48 ≤ c.toNat ∧ c.toNat ≤ 57 then some (c.toNat - 48)
    else if 97 ≤ c.toNat ∧ c.toNat ≤ 122 then some (c.toNat - 87)
    else if 65 ≤ c.toNat ∧ c.toNat ≤ 90 then some (c.toNat - 55)
    else none
  match v with
  | some d => if d < radix then some d else none
  | none => none

/-- Digit values of the longest prefix made of digits of the radix. -/
def takeDigits (radix : Nat) : List Char → List Nat
  | [] => []
  | c :: cs =>
    match digitValue radix c with
    | some d => d :: takeDigits radix cs
    | none => []

/-- Number denoted by a most-significant-first list of digit values. -/
def digitsToNat (radix : Nat) (ds : List Nat) : Nat :=
  ds.foldl (fun acc d => acc * radix + d) 0

/-- Denominator of the finite doubles: each is `m / 2 ^ 1074`. -/
def scale : Nat := 2 ^ 1074

/-- Floor of the base-2 logarithm by repeated halving (0 for 0 and 1). -/
def log2Fuel : Nat → Nat → Nat
  | 0, _ => 0
  | fuel + 1, n => if n < 2 then 0 else log2Fuel fuel (n / 2) + 1

/-- Floor of the base-2 logarithm. -/
def floorLog2 (n : Nat) : Nat := log2Fuel n n

/-- Round-to-nearest, ties-to-even, of the quotient `a / b` to 53 significant
bits: quotients below `2 ^ 53` round to an integer, larger ones to a multiple
of `2 ^ k` with `k` the number of bits beyond the 53rd. -/
def roundNearest (a b : Nat) : Nat :=
  let k := floorLog2 (a / b) - 52
  let d := b * 2 ^ k
  let q := a / d
  let r := a % d
  if d < 2 * r ∨ (2 * r = d ∧ q % 2 = 1) then (q + 1) * 2 ^ k else q * 2 ^ k

/-- A JavaScript Number: `NaN`, an infinity, or the finite double
`m / 2 ^ 1074` with the given sign. -/
inductive Num where
  | nan
  | inf (neg : Bool)
  | fin (neg : Bool) (m : Nat)
  deriving Repr, DecidableEq

/-- An integer-valued Number, as `parseInt` and `Math.ceil` return: `NaN`, an
infinity, or the integer `v` with the given sign. -/
inductive IntNum where
  | nan
  | inf (neg : Bool)
  | int (neg : Bool) (v : Nat)
  deriving Repr, DecidableEq

/-- A rounded magnitude as a Number; magnitudes from `2 ^ 1024` overflow to
infinity. -/
def Num.ofScaled (neg : Bool) (m : Nat) : Num :=
  if m < 2 ^ 1024 * scale then Num.fin neg m else Num.inf neg

/-- Conversion of a mathematical integer to the nearest Number. -/
def IntNum.ofNat (neg : Bool) (n : Nat) : IntNum :=
  let v := roundNearest n 1
  if v < 2 ^ 1024 then IntNum.int neg v else IntNum.inf neg

/-- An integer-valued Number as a Number. -/
def IntNum.toNum : IntNum → Num
  | IntNum.nan => Num.nan
  | IntNum.inf neg => Num.inf neg
  | IntNum.int neg v => Num.fin neg (v * scale)

/-- Signed numerator of a finite double. -/
def Num.toInt (neg : Bool) (m : Nat) : Int := if neg then -(m : Int) else (m : Int)

/-- Model of `x + y` on Numbers: the exact sum, rounded. -/
def Num.add : Num → Num → Num
  | Num.fin n1 m1, Num.fin n2 m2 =>
    let v := Num.toInt n1 m1 + Num.toInt n2 m2
    Num.ofScaled (decide (v < 0)) (roundNearest v.natAbs 1)
  | Num.fin _ _, Num.inf neg => Num.inf neg
  | Num.inf neg, Num.fin _ _ => Num.inf neg
  | Num.inf a, Num.inf b => if a = b then Num.inf a else Num.nan
  | _, _ => Num.nan

/-- Model of `x / 100` on Numbers: the exact quotient, rounded. -/
def Num.divHundred : Num → Num
  | Num.nan => Num.nan
  | Num.inf neg => Num.inf neg
  | Num.fin neg m => Num.fin neg (roundNearest m 100)

/-- Model of `x < y` on Numbers; any comparison with `NaN` is false. -/
def Num.lt : Num → Num → Bool
  | Num.fin n1 m1, Num.fin n2 m2 => decide (Num.toInt n1 m1 < Num.toInt n2 m2)
  | Num.fin _ _, Num.inf neg => !neg
  | Num.inf neg, Num.fin _ _ => neg
  | Num.inf a, Num.inf b => a && !b
  | _, _ => false

/-- Model of `Math.ceil(x)`. -/
def Num.ceil : Num → IntNum
  | Num.nan => IntNum.nan
  | Num.inf neg => IntNum.inf neg
  | Num.fin false m => IntNum.int false ((m + scale - 1) / scale)
  | Num.fin true m => IntNum.int true (m / scale)

/-- Model of `parseInt(text)` without a radix argument: skip white space, read
a sign, switch to radix 16 after `0x`/`0X`, convert the longest digit prefix
and round the integer to a Number; `NaN` when there is no digit. -/
def parseInt (text : List Char) : IntNum :=
  let s := text.dropWhile isWhiteSpace
  let signed : Bool × List Char :=
    match s with
    | '-' :: r => (true, r)
    | '+' :: r => (false, r)
    | _ => (false, s)
  let based : Nat × List Char :=
    match signed.2 with
    | '0' :: 'x' :: r => (16, r)
    | '0' :: 'X' :: r => (16, r)
    | _ => (10, signed.2)
  match takeDigits based.1 based.2 with
  | [] => IntNum.nan
  | ds => IntNum.ofNat signed.1 (digitsToNat based.1 ds)

/-- Digits without their trailing zeros. -/
def stripZeros (ds : List Char) : List Char :=
  (ds.reverse.dropWhile (fun c => c = '0')).reverse

/-- A `k`-digit integer `s` such that `s * 10 ^ (n - k)` converts to the
double `v`, the one closest to `v` (the even one on a tie), if there is one. -/
def shortestCandidate (v n k : Nat) : Option Nat :=
  let p := 10 ^ (n - k)
  let lo := v / p
  let hi := lo + 1
  let okLo := decide (roundNearest (lo * p) 1 = v)
  let okHi := decide (roundNearest (hi * p) 1 = v)
  if okLo && okHi then
    (if v - lo * p < hi * p - v then some lo
     else if hi * p - v < v - lo * p then some hi
     else if lo % 2 = 0 then some lo else some hi)
  else if okLo then some lo
  else if okHi then some hi
  else none

/-- Search for the least number of digits `k` that has a candidate; returns
the candidate and `k`. -/
def shortestSearch (v n : Nat) : Nat → Nat → Nat × Nat
  | 0, _ => (v, n)
  | fuel + 1, k =>
    match shortestCandidate v n k with
    | some s => (s, k)
    | none => shortestSearch v n fuel (k + 1)

/-- Number-to-string conversion of an integer double from `2 ^ 53` on: the
shortest digits that convert back to the double, padded with zeros up to 21
digits and in exponent notation beyond. -/
def bigToString (v : Nat) : List Char :=
  let n := (Nat.toDigits 10 v).length
  let r := shortestSearch v n n 1
  let digits := stripZeros (Nat.toDigits 10 r.1)
  let n' := (Nat.toDigits 10 r.1).length + (n - r.2)
  if n' ≤ 21 then digits ++ List.replicate (n' - digits.length) '0'
  else
    match digits with
    | [] => []
    | [d] => d :: 'e' :: '+' :: Nat.toDigits 10 (n' - 1)
    | d :: ds => d :: '.' :: (ds ++ 'e' :: '+' :: Nat.toDigits 10 (n' - 1))

/-- Text of an integer-valued Number, as string concatenation produces it.
Below `2 ^ 53` every integer is a double and its shortest round-trip digits
are all of its digits. -/
def numToString : IntNum → List Char
  | IntNum.nan => ['N', 'a', 'N']
  | IntNum.inf false => ['I', 'n', 'f', 'i', 'n', 'i', 't', 'y']
  | IntNum.inf true => ['-', 'I', 'n', 'f', 'i', 'n', 'i', 't', 'y']
  | IntNum.int neg v =>
    if v = 0 then ['0']
    else (if neg then ['-'] else []) ++
      (if v < 2 ^ 53 then Nat.toDigits 10 v else bigToString v)

/-- The expression `counter.textContent.includes('%') ? '%' : '+'`. -/
def suffixOf (text : List Char) : List Char :=
  if '%' ∈ text then ['%'] else ['+']

/-- One stat counter: its displayed text and the closure variables `target`,
`increment` and `current`. -/
structure Counter where
  textContent : List Char
  target : IntNum
  increment : Num
  current : Num
  deriving Repr, DecidableEq

/-- Body of the `forEach` callback up to the first `updateCounter()` call. -/
def startCounter (text : List Char) : Counter :=
  let target := parseInt text
  { textContent := text, target := target, increment := target.toNum.divHundred,
    current := Num.fin false 0 }

/-- Embedding of one call of `updateCounter`; the flag tells whether another
animation frame was requested. -/
def updateCounter (c : Counter) : Counter × Bool :=
  if c.current.lt c.target.toNum then
    let current := c.current.add c.increment
    ({ c with current := current,
              textContent := numToString current.ceil ++ suffixOf c.textContent }, true)
  else
    ({ c with textContent := numToString c.target ++ suffixOf c.textContent }, false)

/-- The frame loop: calls `updateCounter` once per frame while it keeps
requesting frames, and returns the counter after each frame; `none` when the
given number of frames is not enough for the loop to stop. -/
def runFrames : Nat → Counter → Option (List Counter)
  | 0, _ => none
  | fuel + 1, c =>
    let r := updateCounter c
    if r.2 then (runFrames fuel r.1).map (fun rest => r.1 :: rest) else some [r.1]

/-- The counter animation of one element, from its initial text. -/
def animateCounter (fuel : Nat) (text : List Char) : Option (List Counter) :=
  runFrames fuel (startCounter text)

/-- Number of frames of the animation and, after the first `start` frames, the text
shown and the integer `Math.ceil(current)` behind it. -/
def framesFrom (fuel : Nat) (text : List Char) (start : Nat) :
    Option (Nat × List (List Char × IntNum)) :=
  (animateCounter fuel text).map fun tr =>
    (tr.length, (tr.drop start).map (fun c => (c.textContent, c.current.ceil)))

/-- A page in light theme whose store rejects writes (reads still work). -/
def readOnlyStoreEnv : ThemeEnv :=
  { ThemeEnv.blank with
    dataTheme := some "light",
    storage := { canRead := true, canWrite := false, item := none } }

/-- A page in light theme with a working store. -/
def lightThemeEnv : ThemeEnv := { ThemeEnv.blank with dataTheme := some "light" }

/-- A first visit: nothing stored, storage working, system scheme light. -/
def firstVisitEnv : ThemeEnv := ThemeEnv.blank

/-- A page whose storage throws on every access, system scheme dark. -/
def noStorageEnv : ThemeEnv :=
  { ThemeEnv.blank with
    storage := { canRead := false, canWrite := false, item := none },
    matchMedia := some true }

/-- A page with every element the script looks up. -/
def fullPage : Page :=
  { hamburger := some false, navMenu := some { active := false, links := 4 }, anchors := 4,
    navbar := some "", contactForm := true, revealTargets := 6, statsSection := true,
    floatingCards := 3, scrollY := 0 }

/-- A page with every looked-up element except the hamburger trigger. -/
def pageWithoutHamburger : Page := { fullPage with hamburger := none }

/-- A page with every looked-up element except the contact form. -/
def pageWithoutContactForm : Page := { fullPage with contactForm := false }

/-- A page with every looked-up element except the stats section. -/
def pageWithoutStats : Page := { fullPage with statsSection := false }

/-! # Theorems -/

/-! ### Slider lemmas -/

theorem showSlide_index (i : Int) (s : Slider) :
    (showSlide i s).state.currentSlideIndex = s.currentSlideIndex := by
  unfold showSlide
  simp only
  split_ifs <;> rfl

theorem showSlide_slides_length (i : Int) (s : Slider) :
    (showSlide i s).state.slides.length = s.slides.length := by
  unfold showSlide
  simp only
  split_ifs <;> simp [Outcome.state]

theorem changeSlide_slides_length (d : Int) (s : Slider) :
    (changeSlide d s).state.slides.length = s.slides.length := by
  unfold changeSlide
  simp only [showSlide_slides_length]

theorem changeSlide_index (d : Int) (s : Slider) :
    (changeSlide d s).state.currentSlideIndex =
      (if s.currentSlideIndex + d ≥ s.totalSlides then 0
       else if s.currentSlideIndex + d < 0 then s.totalSlides - 1
       else s.currentSlideIndex + d) := by
  unfold changeSlide
  simp only [showSlide_index]

theorem changeSlides_slides_length (ds : List Int) (s : Slider) :
    (changeSlides ds s).slides.length = s.slides.length := by
  induction ds generalizing s with
  | nil => rfl
  | cons d ds ih =>
    simp only [changeSlides, List.foldl_cons] at ih ⊢
    rw [ih, changeSlide_slides_length]

theorem changeSlides_append (xs ys : List Int) (s : Slider) :
    changeSlides (xs ++ ys) s = changeSlides ys (changeSlides xs s) := by
  simp [changeSlides, List.foldl_append]

/-- One step keeps the index equal to the running sum modulo the slide count. -/
theorem changeSlide_step (s : Slider) (d t : Int) (hN : 1 ≤ s.totalSlides)
    (hd : d = 1 ∨ d = -1)
    (hr : 0 ≤ s.currentSlideIndex ∧ s.currentSlideIndex < s.totalSlides)
    (hs : s.currentSlideIndex = t % s.totalSlides) :
    (0 ≤ (changeSlide d s).state.currentSlideIndex ∧
      (changeSlide d s).state.currentSlideIndex < s.totalSlides) ∧
    (changeSlide d s).state.currentSlideIndex = (t + d) % s.totalSlides := by
  rw [changeSlide_index]
  have hmod : (t + d) % s.totalSlides = (s.currentSlideIndex + d) % s.totalSlides := by
    rw [hs, Int.emod_add_cancel_right]
    exact (Int.emod_emod_of_dvd t (dvd_refl _)).symm
  rw [hmod]
  rcases hd with hd | hd <;> subst hd
  · by_cases h : s.currentSlideIndex + 1 ≥ s.totalSlides
    · have he : s.currentSlideIndex + 1 = s.totalSlides := by omega
      rw [if_pos h, he, Int.emod_self]
      omega
    · have h2 : ¬ (s.currentSlideIndex + 1 < 0) := by omega
      rw [if_neg h, if_neg h2, Int.emod_eq_of_lt (by omega) (by omega)]
      omega
  · have h : ¬ (s.currentSlideIndex + -1 ≥ s.totalSlides) := by omega
    by_cases h2 : s.currentSlideIndex + -1 < 0
    · have he : s.currentSlideIndex + -1 = (s.totalSlides - 1) + (-1) * s.totalSlides := by
        omega
      rw [if_neg h, if_pos h2, he, Int.add_mul_emod_self,
        Int.emod_eq_of_lt (by omega) (by omega)]
      omega
    · rw [if_neg h, if_neg h2, Int.emod_eq_of_lt (by omega) (by omega)]
      omega

/-- Invariant over a whole run of `changeSlide` calls from index 0. -/
theorem changeSlides_invariant (ds : List Int) (s : Slider) (hN : 1 ≤ s.totalSlides)
    (h0 : s.currentSlideIndex = 0) (hds : ∀ d ∈ ds, d = 1 ∨ d = -1) :
    (0 ≤ (changeSlides ds s).currentSlideIndex ∧
      (changeSlides ds s).currentSlideIndex < s.totalSlides) ∧
    (changeSlides ds s).currentSlideIndex = ds.sum % s.totalSlides := by
  induction ds using List.reverseRecOn with
  | nil =>
    simp only [changeSlides, List.foldl_nil, List.sum_nil, h0, Int.zero_emod]
    exact ⟨⟨le_refl _, by omega⟩, trivial⟩
  | append_singleton xs d ih =>
    have hxs : ∀ d ∈ xs, d = 1 ∨ d = -1 := fun e he => hds e (by simp [he])
    have hd : d = 1 ∨ d = -1 := hds d (by simp)
    obtain ⟨hr, hsum⟩ := ih hxs
    have hT : (changeSlides xs s).totalSlides = s.totalSlides := by
      simp only [Slider.totalSlides, changeSlides_slides_length]
    have step := changeSlide_step (changeSlides xs s) d xs.sum (by rw [hT]; exact hN) hd
      (by rw [hT]; exact hr) (by rw [hT]; exact hsum)
    rw [hT] at step
    rw [changeSlides_append]
    simpa [changeSlides] using step



/-! ### Decimal text and `parseInt` -/

theorem digitValue_digitChar (k : Nat) (hk : k < 10) :
    digitValue 10 (Nat.digitChar k) = some k := by
  interval_cases k <;> rfl

theorem isWhiteSpace_digitChar (k : Nat) (hk : k < 10) :
    isWhiteSpace (Nat.digitChar k) = false := by
  interval_cases k <;> rfl

theorem digitChar_ne_percent (k : Nat) (hk : k < 10) : Nat.digitChar k ≠ '%' := by
  interval_cases k <;> decide

/-- With enough fuel the core printer emits the reversed little-endian digits. -/
theorem toDigitsCore_eq (fuel : Nat) : ∀ (n : Nat) (ds : List Char), 0 < n → n < fuel →
    Nat.toDigitsCore 10 fuel n ds = ((Nat.digits 10 n).reverse.map Nat.digitChar) ++ ds := by
  induction fuel with
  | zero => intro n ds _ hf; omega
  | succ f ih =>
    intro n ds hn hf
    rw [Nat.digits_def' (by decide) hn]
    simp only [Nat.toDigitsCore]
    by_cases h0 : n / 10 = 0
    · simp [h0]
    · rw [if_neg h0, ih (n / 10) _ (Nat.pos_of_ne_zero h0) (by omega)]
      simp

theorem toDigits_eq (n : Nat) (hn : 0 < n) :
    Nat.toDigits 10 n = (Nat.digits 10 n).reverse.map Nat.digitChar := by
  unfold Nat.toDigits
  rw [toDigitsCore_eq (n + 1) n [] hn (by omega)]
  simp

theorem toDigits_chars (n : Nat) : ∀ c ∈ Nat.toDigits 10 n, ∃ k, k < 10 ∧ c = Nat.digitChar k := by
  intro c hc
  rcases Nat.eq_zero_or_pos n with h | h
  · subst h
    have : c = '0' := by simpa [Nat.toDigits, Nat.toDigitsCore] using hc
    exact ⟨0, by decide, this⟩
  · rw [toDigits_eq n h] at hc
    simp only [List.mem_map, List.mem_reverse] at hc
    obtain ⟨k, hk, rfl⟩ := hc
    exact ⟨k, Nat.digits_lt_base (by decide) hk, rfl⟩

theorem takeDigits_map (ds : List Nat) (h : ∀ d ∈ ds, d < 10) (rest : List Char)
    (hrest : takeDigits 10 rest = []) :
    takeDigits 10 (ds.map Nat.digitChar ++ rest) = ds := by
  induction ds with
  | nil => simpa using hrest
  | cons d ds ih =>
    have hd : d < 10 := h d (by simp)
    simp only [List.map_cons, List.cons_append, takeDigits, digitValue_digitChar d hd]
    exact congrArg (List.cons d) (ih (fun e he => h e (by simp [he])))

theorem digitsToNat_reverse (l : List Nat) :
    digitsToNat 10 l.reverse = Nat.ofDigits 10 l := by
  induction l with
  | nil => rfl
  | cons d l ih =>
    have : digitsToNat 10 (l.reverse ++ [d]) = digitsToNat 10 l.reverse * 10 + d := by
      simp [digitsToNat, List.foldl_append]
    rw [List.reverse_cons, this, ih, Nat.ofDigits_cons]
    ring


/-- After a leading nonzero decimal digit `parseInt` reads radix 10 from the
first character on. -/
theorem parseInt_cons_digit (d : Nat) (h1 : 1 ≤ d) (h9 : d < 10) (rest : List Char) :
    parseInt (Nat.digitChar d :: rest) =
      match takeDigits 10 (Nat.digitChar d :: rest) with
      | [] => IntNum.nan
      | ds => IntNum.ofNat false (digitsToNat 10 ds) := by
  interval_cases d <;> simp [parseInt, List.dropWhile, isWhiteSpace, Nat.digitChar]

theorem parseInt_toDigits (T : Nat) (hT : 0 < T) (sfx : List Char)
    (hs : takeDigits 10 sfx = []) :
    parseInt (Nat.toDigits 10 T ++ sfx) = IntNum.ofNat false T := by
  have hne : Nat.digits 10 T ≠ [] := Nat.digits_ne_nil_iff_ne_zero.mpr (by omega)
  have hlast := Nat.getLast_digit_ne_zero 10 (m := T) (by omega)
  have hall : ∀ d ∈ (Nat.digits 10 T).reverse, d < 10 := fun d hd =>
    Nat.digits_lt_base (by decide) (List.mem_reverse.mp hd)
  have hval : digitsToNat 10 (Nat.digits 10 T).reverse = T := by
    rw [digitsToNat_reverse, Nat.ofDigits_digits]
  have htake := takeDigits_map (Nat.digits 10 T).reverse hall sfx hs
  rw [toDigits_eq T hT]
  rcases hrev : (Nat.digits 10 T).reverse with _ | ⟨d0, L⟩
  · exact absurd (List.reverse_eq_nil_iff.mp hrev) hne
  · have hd0 : d0 = (Nat.digits 10 T).getLast hne := by
      have := List.head?_reverse (Nat.digits 10 T)
      rw [hrev, List.getLast?_eq_getLast _ hne] at this
      simpa using this
    have h1 : 1 ≤ d0 := by
      rw [hd0]; exact Nat.one_le_iff_ne_zero.mpr hlast
    have h9 : d0 < 10 := hall d0 (by rw [hrev]; simp)
    rw [hrev] at htake hval
    simp only [List.map_cons, List.cons_append] at htake ⊢
    rw [parseInt_cons_digit d0 h1 h9, htake]
    simp only [hval]

/-! ### Number text never contains a percent sign -/

theorem percent_not_mem_toDigits (m : Nat) : '%' ∉ Nat.toDigits 10 m := by
  intro hm
  obtain ⟨k, hk, he⟩ := toDigits_chars m _ hm
  exact digitChar_ne_percent k hk he.symm

theorem mem_stripZeros (c : Char) (ds : List Char) (h : c ∈ stripZeros ds) : c ∈ ds := by
  unfold stripZeros at h
  rw [List.mem_reverse] at h
  exact List.mem_reverse.mp ((List.dropWhile_suffix _).subset h)

theorem percent_not_mem_exponent (ds es : List Char) (hd : '%' ∉ ds) (he : '%' ∉ es) :
    '%' ∉ (match ds with
      | [] => []
      | [d] => d :: 'e' :: '+' :: es
      | d :: t => d :: '.' :: (t ++ 'e' :: '+' :: es)) := by
  rcases ds with _ | ⟨d, _ | ⟨d2, t⟩⟩
  · simp
  · simp only [List.mem_cons, List.mem_singleton, List.not_mem_nil, or_false] at hd
    simp only [List.mem_cons, not_or]
    exact ⟨hd, by decide, by decide, he⟩
  · simp only [List.mem_cons, not_or] at hd
    simp only [List.mem_cons, List.mem_append, not_or]
    exact ⟨hd.1, by decide, ⟨hd.2.1, hd.2.2⟩, by decide, by decide, he⟩

theorem percent_not_mem_bigToString (v : Nat) : '%' ∉ bigToString v := by
  have hs : ∀ m, '%' ∉ stripZeros (Nat.toDigits 10 m) := fun m h =>
    percent_not_mem_toDigits m (mem_stripZeros _ _ h)
  simp only [bigToString]
  split_ifs
  · simp only [List.mem_append, List.mem_replicate, not_or]
    exact ⟨hs _, fun h => absurd h.2 (by decide)⟩
  · exact percent_not_mem_exponent _ _ (hs _) (percent_not_mem_toDigits _)

theorem percent_not_mem_numToString (x : IntNum) : '%' ∉ numToString x := by
  rcases x with _ | neg | ⟨neg, v⟩
  · decide
  · cases neg <;> decide
  · simp only [numToString]
    split_ifs
    · decide
    · simp only [List.mem_append, List.mem_singleton, not_or]
      exact ⟨by decide, percent_not_mem_toDigits v⟩
    · simp only [List.mem_append, List.mem_singleton, not_or]
      exact ⟨by decide, percent_not_mem_bigToString v⟩
    · simp only [List.nil_append]
      exact percent_not_mem_toDigits v
    · simp only [List.nil_append]
      exact percent_not_mem_bigToString v

theorem suffixOf_append_suffixOf (x text : List Char) (hx : '%' ∉ x) :
    suffixOf (x ++ suffixOf text) = suffixOf text := by
  by_cases h : '%' ∈ text
  · simp [suffixOf, h]
  · simp [suffixOf, h, hx]

/-! ### Rounding to 53 bits -/

theorem log2Fuel_le : ∀ (fuel n : Nat), 1 ≤ n → n ≤ fuel → 2 ^ log2Fuel fuel n ≤ n := by
  intro fuel
  induction fuel with
  | zero => intro n h1 h2; omega
  | succ f ih =>
    intro n h1 h2
    simp only [log2Fuel]
    by_cases h : n < 2
    · rw [if_pos h]; simpa using h1
    · rw [if_neg h, pow_succ]
      have := ih (n / 2) (by omega) (by omega)
      omega

theorem floorLog2_le (n : Nat) (h : 1 ≤ n) : 2 ^ floorLog2 n ≤ n :=
  log2Fuel_le n n h (le_refl n)

/-- The bits dropped by the rounding carry weight `2 ^ 52` times less than the
quotient: `2 ^ 52 * 2 ^ k ≤ n` for `k = floorLog2 n - 52`, unless `k = 0`. -/
theorem pow_drop_le (n : Nat) (hk : 0 < floorLog2 n - 52) :
    2 ^ 52 * 2 ^ (floorLog2 n - 52) ≤ n := by
  have h1 : 1 ≤ n := by
    rcases Nat.eq_zero_or_pos n with h | h
    · subst h; simp [floorLog2, log2Fuel] at hk
    · exact h
  have h2 := floorLog2_le n h1
  have h3 : 52 + (floorLog2 n - 52) = floorLog2 n := by omega
  rw [← pow_add, h3]
  exact h2

theorem roundNearest_one_lower (a : Nat) :
    2 ^ 53 * a ≤ 2 ^ 53 * roundNearest a 1 + a := by
  unfold roundNearest
  simp only [Nat.div_one, one_mul]
  have hdm := Nat.div_add_mod a (2 ^ (floorLog2 a - 52))
  have hlt : a % 2 ^ (floorLog2 a - 52) < 2 ^ (floorLog2 a - 52) :=
    Nat.mod_lt _ (by positivity)
  generalize hP : 2 ^ (floorLog2 a - 52) = P at hdm hlt ⊢
  generalize hQ : a / P = Q at hdm ⊢
  generalize hR : a % P = R at hdm hlt ⊢
  split_ifs with h
  · have e : (Q + 1) * P = P * Q + P := by ring
    rw [e]; omega
  · have hle : 2 * R ≤ P := by
      by_contra hc
      exact h (Or.inl (by omega))
    have hRa : 2 ^ 53 * R ≤ a := by
      rcases Nat.eq_zero_or_pos (floorLog2 a - 52) with hk | hk
      · rw [hk] at hP
        have : P = 1 := by rw [← hP]; rfl
        omega
      · have := pow_drop_le a hk
        rw [hP] at this
        omega
    have e : Q * P = P * Q := by ring
    rw [e]; omega

theorem roundNearest_one_upper (a : Nat) : roundNearest a 1 ≤ 2 * a := by
  unfold roundNearest
  simp only [Nat.div_one, one_mul]
  have hdm := Nat.div_add_mod a (2 ^ (floorLog2 a - 52))
  have hPa : a % 2 ^ (floorLog2 a - 52) ≠ 0 → 2 ^ (floorLog2 a - 52) ≤ a := by
    intro hne
    rcases Nat.eq_zero_or_pos (floorLog2 a - 52) with hk | hk
    · rw [hk] at hne; simp [Nat.mod_one] at hne
    · have := pow_drop_le a hk
      omega
  generalize hP : 2 ^ (floorLog2 a - 52) = P at hdm hPa ⊢
  generalize hQ : a / P = Q at hdm ⊢
  generalize hR : a % P = R at hdm hPa ⊢
  split_ifs with h
  · have e : (Q + 1) * P = P * Q + P := by ring
    have hPpos : 0 < P := by rw [← hP]; positivity
    have hR0 : R ≠ 0 := by
      rcases h with h | ⟨h, _⟩ <;> omega
    have := hPa hR0
    rw [e]; omega
  · have e : Q * P = P * Q := by ring
    rw [e]; omega

theorem roundNearest_small (a : Nat) (h : a < 2 ^ 53) : roundNearest a 1 = a := by
  have hk : floorLog2 a - 52 = 0 := by
    rcases Nat.eq_zero_or_pos (floorLog2 a - 52) with hk | hk
    · exact hk
    · have := pow_drop_le a hk
      have h1 : 2 ^ 1 ≤ 2 ^ (floorLog2 a - 52) := Nat.pow_le_pow_right (by decide) hk
      omega
  unfold roundNearest
  simp [hk, Nat.mod_one]

theorem roundNearest_hundred_lower (a : Nat) (ha : 100 * 2 ^ 52 ≤ a) :
    2 ^ 52 * a ≤ 2 ^ 52 * (100 * roundNearest a 100) + a := by
  simp only [roundNearest]
  have hd : 2 ^ 52 * (100 * 2 ^ (floorLog2 (a / 100) - 52)) ≤ a := by
    rcases Nat.eq_zero_or_pos (floorLog2 (a / 100) - 52) with hk | hk
    · rw [hk]; omega
    · have := pow_drop_le (a / 100) hk
      have := Nat.div_mul_le_self a 100
      omega
  have hdm := Nat.div_add_mod a (100 * 2 ^ (floorLog2 (a / 100) - 52))
  have hlt : a % (100 * 2 ^ (floorLog2 (a / 100) - 52)) <
      100 * 2 ^ (floorLog2 (a / 100) - 52) := Nat.mod_lt _ (by positivity)
  generalize hP : 2 ^ (floorLog2 (a / 100) - 52) = P at hd hdm hlt ⊢
  generalize hQ : a / (100 * P) = Q at hdm ⊢
  generalize hR : a % (100 * P) = R at hdm hlt ⊢
  have e1 : 100 * ((Q + 1) * P) = 100 * P * Q + 100 * P := by ring
  have e2 : 100 * (Q * P) = 100 * P * Q := by ring
  split_ifs with h
  · rw [e1]; omega
  · rw [e2]; omega

theorem roundNearest_hundred_upper (a : Nat) (ha : 100 * 2 ^ 52 ≤ a) :
    roundNearest a 100 ≤ a := by
  simp only [roundNearest]
  have hd : 2 ^ 52 * (100 * 2 ^ (floorLog2 (a / 100) - 52)) ≤ a := by
    rcases Nat.eq_zero_or_pos (floorLog2 (a / 100) - 52) with hk | hk
    · rw [hk]; omega
    · have := pow_drop_le (a / 100) hk
      have := Nat.div_mul_le_self a 100
      omega
  have hdm := Nat.div_add_mod a (100 * 2 ^ (floorLog2 (a / 100) - 52))
  generalize hP : 2 ^ (floorLog2 (a / 100) - 52) = P at hd hdm ⊢
  generalize hQ : a / (100 * P) = Q at hdm ⊢
  generalize hR : a % (100 * P) = R at hdm ⊢
  have e1 : 100 * ((Q + 1) * P) = 100 * P * Q + 100 * P := by ring
  have e2 : 100 * (Q * P) = 100 * P * Q := by ring
  split_ifs with h
  · have : 100 * ((Q + 1) * P) ≤ 100 * a := by rw [e1]; omega
    omega
  · have : 100 * (Q * P) ≤ 100 * a := by rw [e2]; omega
    omega

/-! ### The frame loop -/

theorem lt_fin (a b : Nat) :
    Num.lt (Num.fin false a) (Num.fin false b) = decide (a < b) := by
  simp [Num.lt, Num.toInt]

theorem add_fin (a b : Nat) :
    Num.add (Num.fin false a) (Num.fin false b) =
      Num.ofScaled false (roundNearest (a + b) 1) := by
  have h1 : ¬ ((a : Int) + (b : Int) < 0) := by omega
  have h2 : ((a : Int) + (b : Int)).natAbs = a + b := by omega
  simp [Num.add, Num.toInt, h1, h2]

theorem scale_pos : 0 < scale := Nat.two_pow_pos 1074

theorem scale_large : 100 * 2 ^ 52 ≤ scale := by
  have h : (2 : Nat) ^ 59 ≤ 2 ^ 1074 := Nat.pow_le_pow_right (by decide) (by decide)
  have h2 : 100 * 2 ^ 52 ≤ (2 : Nat) ^ 59 := by norm_num
  exact Nat.le_trans h2 h

theorem overflow_bound : 2 ^ 55 * scale ≤ 2 ^ 1024 * scale :=
  Nat.mul_le_mul_right _ (Nat.pow_le_pow_right (by decide) (by decide))

/-- A frame that finds `current < target` adds the increment and asks for
another frame. -/
theorem updateCounter_continue (text : List Char) (T I cur : Nat)
    (h : cur < T * scale) (hfin : roundNearest (cur + I) 1 < 2 ^ 1024 * scale) :
    updateCounter { textContent := text, target := IntNum.int false T,
                    increment := Num.fin false I, current := Num.fin false cur } =
      ({ textContent :=
           numToString (Num.ceil (Num.fin false (roundNearest (cur + I) 1))) ++ suffixOf text,
         target := IntNum.int false T, increment := Num.fin false I,
         current := Num.fin false (roundNearest (cur + I) 1) }, true) := by
  simp [updateCounter, IntNum.toNum, lt_fin, add_fin, Num.ofScaled, h, hfin]

/-- A frame that finds `current >= target` shows the target and stops. -/
theorem updateCounter_stop (text : List Char) (T I cur : Nat) (h : ¬ cur < T * scale) :
    updateCounter { textContent := text, target := IntNum.int false T,
                    increment := Num.fin false I, current := Num.fin false cur } =
      ({ textContent := numToString (IntNum.int false T) ++ suffixOf text,
         target := IntNum.int false T, increment := Num.fin false I,
         current := Num.fin false cur }, false) := by
  simp [updateCounter, IntNum.toNum, lt_fin, h]

theorem numToString_small (T : Nat) (hT : 0 < T) (hT53 : T < 2 ^ 53) :
    numToString (IntNum.int false T) = Nat.toDigits 10 T := by
  have h0 : T ≠ 0 := by omega
  simp only [numToString, if_neg h0, if_pos hT53, Bool.false_eq_true, if_false,
    List.nil_append]

/-- After `j` additions `current` is at least `j` times the increment minus
the accumulated rounding error, so the loop cannot run past 101 additions:
from a state reached by `j` additions it stops within `101 - j` more frames
plus the final one, and every text along the way is a number followed by the
suffix. -/
theorem runFrames_converges (T : Nat) (hT : 0 < T) (hT53 : T < 2 ^ 53) (text0 : List Char) :
    ∀ (n j : Nat), j + n = 101 → ∀ (text : List Char) (cur : Nat),
      suffixOf text = suffixOf text0 →
      (2 ^ 52 - 101) * (j * (T * scale)) ≤ 100 * 2 ^ 52 * cur →
      ∃ trace last,
        (∀ fuel, n + 1 ≤ fuel →
          runFrames fuel { textContent := text, target := IntNum.int false T,
                           increment := Num.fin false (roundNearest (T * scale) 100),
                           current := Num.fin false cur } = some trace) ∧
        trace.getLast? = some last ∧
        last.textContent = Nat.toDigits 10 T ++ suffixOf text0 ∧
        ∀ c ∈ trace, suffixOf c.textContent = suffixOf text0 ∧
          ∃ x, c.textContent = numToString x ++ suffixOf text0 := by
  have hA : 100 * 2 ^ 52 ≤ T * scale :=
    Nat.le_trans scale_large (Nat.le_mul_of_pos_left scale hT)
  have hAlt : T * scale < 2 ^ 53 * scale :=
    Nat.mul_lt_mul_of_pos_right hT53 scale_pos
  have hIlow := roundNearest_hundred_lower (T * scale) hA
  have hIup := roundNearest_hundred_upper (T * scale) hA
  have hbig := overflow_bound
  generalize hI : roundNearest (T * scale) 100 = I at hIlow hIup ⊢
  generalize hAdef : T * scale = A at hA hAlt hIlow hIup ⊢
  generalize hB : 2 ^ 1024 * scale = B at hbig ⊢
  -- the final frame, shared by both ways of stopping
  have hstop : ∀ (text : List Char) (cur : Nat), suffixOf text = suffixOf text0 →
      ¬ cur < A → ∀ m : Nat,
      ∃ trace last,
        (∀ fuel, m + 1 ≤ fuel →
          runFrames fuel { textContent := text, target := IntNum.int false T,
                           increment := Num.fin false I,
                           current := Num.fin false cur } = some trace) ∧
        trace.getLast? = some last ∧
        last.textContent = Nat.toDigits 10 T ++ suffixOf text0 ∧
        ∀ c ∈ trace, suffixOf c.textContent = suffixOf text0 ∧
          ∃ x, c.textContent = numToString x ++ suffixOf text0 := by
    intro text cur hs hcur m
    have hu := updateCounter_stop text T I cur (by rw [hAdef]; exact hcur)
    refine ⟨[{ textContent := numToString (IntNum.int false T) ++ suffixOf text,
               target := IntNum.int false T, increment := Num.fin false I,
               current := Num.fin false cur }],
      { textContent := numToString (IntNum.int false T) ++ suffixOf text,
        target := IntNum.int false T, increment := Num.fin false I,
        current := Num.fin false cur }, ?_, rfl, ?_, ?_⟩
    · intro fuel hf
      obtain ⟨f, rfl⟩ : ∃ f, fuel = f + 1 := ⟨fuel - 1, by omega⟩
      simp only [runFrames, hu]
      rfl
    · simp only [numToString_small T hT hT53, hs]
    · intro c hc
      rw [List.mem_singleton] at hc
      subst hc
      simp only [hs]
      exact ⟨suffixOf_append_suffixOf _ _ (percent_not_mem_numToString _), _, rfl⟩
  intro n
  induction n with
  | zero =>
    intro j hj text cur hs hinv
    have hj101 : j = 101 := by omega
    subst hj101
    exact hstop text cur hs (by omega) 0
  | succ n ih =>
    intro j hj text cur hs hinv
    by_cases hcur : cur < A
    · have hlow := roundNearest_one_lower (cur + I)
      have hup := roundNearest_one_upper (cur + I)
      have hfin : roundNearest (cur + I) 1 < B := by omega
      have hu := updateCounter_continue text T I cur (by rw [hAdef]; exact hcur)
        (by rw [hB]; exact hfin)
      have hs' : suffixOf (numToString (Num.ceil (Num.fin false (roundNearest (cur + I) 1)))
          ++ suffixOf text) = suffixOf text0 := by
        rw [hs]
        exact suffixOf_append_suffixOf _ _ (percent_not_mem_numToString _)
      have hinv' : (2 ^ 52 - 101) * ((j + 1) * A) ≤
          100 * 2 ^ 52 * roundNearest (cur + I) 1 := by
        have e : (j + 1) * A = j * A + A := by ring
        rw [e]
        omega
      obtain ⟨trace, last, hrun, hlast, htext, hall⟩ :=
        ih (j + 1) (by omega) _ (roundNearest (cur + I) 1) hs' hinv'
      refine ⟨{ textContent :=
                  numToString (Num.ceil (Num.fin false (roundNearest (cur + I) 1))) ++
                    suffixOf text,
                target := IntNum.int false T, increment := Num.fin false I,
                current := Num.fin false (roundNearest (cur + I) 1) } :: trace,
        last, ?_, ?_, htext, ?_⟩
      · intro fuel hf
        obtain ⟨f, rfl⟩ : ∃ f, fuel = f + 1 := ⟨fuel - 1, by omega⟩
        simp only [runFrames, hu, if_true, hrun f (by omega), Option.map_some']
      · rcases trace with _ | ⟨c, t⟩
        · simp at hlast
        · rw [List.getLast?_cons_cons]; exact hlast
      · intro c hc
        rcases List.mem_cons.mp hc with h | h
        · subst h
          refine ⟨hs', Num.ceil (Num.fin false (roundNearest (cur + I) 1)), ?_⟩
          simp only [hs]
        · exact hall c h
    · exact hstop text cur hs hcur (n + 1)

/-! ### List helper -/

theorem getElem_set_map_false (l : List Bool) (n i : Nat) (hn : n < l.length)
    (hi : i < l.length) :
    ((l.map (fun _ => false)).set n true)[i]? = some (decide (i = n)) := by
  rw [List.getElem?_set]
  by_cases h : n = i
  · subst h
    simp [hn]
  · have h2 : ¬ i = n := fun e => h e.symm
    simp [h, h2, hi]

/-! ## Claims -/

/-- C1: for a slider with N >= 1 slides started at index 0, after every call of
a sequence of `changeSlide(+1)` / `changeSlide(-1)` calls the index lies in
`[0, N)` and equals the sum of the directions so far modulo N (non-negative
remainder), so it wraps at both ends. -/
theorem C1_changeSlide_index_mod (s : Slider) (ds : List Int)
    (hN : 1 ≤ s.slides.length) (h0 : s.currentSlideIndex = 0)
    (hds : ∀ d ∈ ds, d = 1 ∨ d = -1) :
    ∀ j, j ≤ ds.length →
      0 ≤ (changeSlides (ds.take j) s).currentSlideIndex ∧
      (changeSlides (ds.take j) s).currentSlideIndex < (s.slides.length : Int) ∧
      (changeSlides (ds.take j) s).currentSlideIndex =
        (ds.take j).sum % (s.slides.length : Int) := by
  intro j _
  have h := changeSlides_invariant (ds.take j) s (by simp only [Slider.totalSlides]; omega) h0
    (fun d hd => hds d (List.mem_of_mem_take hd))
  exact ⟨h.1.1, h.1.2, h.2⟩

/-- Witness for C1 with N = 4: from 0, `changeSlide(-1)` gives 3 and then
`changeSlide(+1)` gives 0. -/
theorem C1_changeSlide_index_mod_witness :
    (changeSlides [-1] ⟨0, [true, false, false, false], [true, false, false, false]⟩).currentSlideIndex
        = 3 ∧
    (changeSlides [-1, 1] ⟨0, [true, false, false, false], [true, false, false, false]⟩).currentSlideIndex
        = 0 ∧
    ∀ j, j ≤ 2 →
      0 ≤ (changeSlides (([-1, 1] : List Int).take j)
        ⟨0, [true, false, false, false], [true, false, false, false]⟩).currentSlideIndex ∧
      (changeSlides (([-1, 1] : List Int).take j)
        ⟨0, [true, false, false, false], [true, false, false, false]⟩).currentSlideIndex < 4 ∧
      (changeSlides (([-1, 1] : List Int).take j)
        ⟨0, [true, false, false, false], [true, false, false, false]⟩).currentSlideIndex =
        (([-1, 1] : List Int).take j).sum % 4 :=
  ⟨by decide, by decide,
    C1_changeSlide_index_mod ⟨0, [true, false, false, false], [true, false, false, false]⟩
      [-1, 1] (by decide) rfl (by decide)⟩

/-- C2: with N >= 1 slides and N indicators, `currentSlide(k)` for 1 <= k <= N
completes, sets `currentSlideIndex` to k - 1, and leaves panel i active iff
i = k - 1 and indicator i active iff i = k - 1, whatever was active before. -/
theorem C2_currentSlide_one_active (s : Slider) (k : Int)
    (hI : s.indicators.length = s.slides.length)
    (hk : 1 ≤ k ∧ k ≤ (s.slides.length : Int)) :
    ∃ s', currentSlide k s = Outcome.ok s' ∧
      s'.currentSlideIndex = k - 1 ∧
      s'.slides.length = s.slides.length ∧
      s'.indicators.length = s.slides.length ∧
      ∀ i : Nat, i < s.slides.length →
        (s'.slides[i]? = some true ↔ (i : Int) = k - 1) ∧
        (s'.indicators[i]? = some true ↔ (i : Int) = k - 1) := by
  obtain ⟨n, rfl⟩ : ∃ n : Nat, k = (n : Int) + 1 := ⟨(k - 1).toNat, by omega⟩
  have hn : n < s.slides.length := by omega
  have hc1 : (0 : Int) ≤ (n : Int) + 1 - 1 ∧
      (n : Int) + 1 - 1 < ((s.slides.map (fun _ => false)).length : Int) := by
    simp only [List.length_map]; omega
  have hc2 : (n : Int) + 1 - 1 < ((s.indicators.map (fun _ => false)).length : Int) := by
    simp only [List.length_map]; omega
  have hnat : ((n : Int) + 1 - 1).toNat = n := by omega
  refine ⟨{ currentSlideIndex := (n : Int) + 1 - 1,
             slides := (s.slides.map (fun _ => false)).set n true,
             indicators := (s.indicators.map (fun _ => false)).set n true },
    by simp only [currentSlide, showSlide, if_pos hc1, if_pos hc2, hnat], rfl, by simp,
    by simp [hI], ?_⟩
  intro i hi
  rw [getElem_set_map_false s.slides n i hn hi,
    getElem_set_map_false s.indicators n i (by omega) (by omega)]
  simp only [Option.some.injEq, decide_eq_true_eq]
  omega

/-- Witness for C2: `currentSlide(2)` on four slides gives index 1 with only
panel 1 and indicator 1 active. -/
theorem C2_currentSlide_one_active_witness :
    currentSlide 2 ⟨0, [true, false, true, false], [false, false, false, true]⟩ =
      Outcome.ok ⟨1, [false, true, false, false], [false, true, false, false]⟩ ∧
    ∃ s', currentSlide 2 ⟨0, [true, false, true, false], [false, false, false, true]⟩ =
        Outcome.ok s' ∧
      s'.currentSlideIndex = 2 - 1 ∧
      s'.slides.length = 4 ∧
      s'.indicators.length = 4 ∧
      ∀ i : Nat, i < 4 →
        (s'.slides[i]? = some true ↔ (i : Int) = 2 - 1) ∧
        (s'.indicators[i]? = some true ↔ (i : Int) = 2 - 1) :=
  ⟨by decide,
    C2_currentSlide_one_active ⟨0, [true, false, true, false], [false, false, false, true]⟩ 2
      rfl (by decide)⟩

/-- C3 (as stated) fails beyond `2 ^ 53`: the text 9007199254740993 parses to
the double 9007199254740992, so the loop ends at "9007199254740992+", which is
not the digits of T followed by the suffix. -/
theorem C3_counterexample_beyond_2_53 :
    Nat.toDigits 10 9007199254740993 =
      ['9', '0', '0', '7', '1', '9', '9', '2', '5', '4', '7', '4', '0', '9', '9', '3'] ∧
    framesFrom 102 (Nat.toDigits 10 9007199254740993) 100 =
      some (101,
        [(['9', '0', '0', '7', '1', '9', '9', '2', '5', '4', '7', '4', '0', '9', '9', '2', '+'],
          IntNum.int false 9007199254740998)]) := by
  decide!

/-- C3 (amended): for initial text made of the decimal digits of a positive
integer T below `2 ^ 53` optionally followed by `%` or `+`, the frame loop
stops (102 frames are enough) and the final text is the digits of T followed
by `%` if the initial text contained `%` and by `+` otherwise; after every
frame the displayed text is a number followed by that same suffix, so the
suffix re-read at each frame is the one fixed by the initial text. -/
theorem C3_counter_final_text_below_2_53 (T : Nat) (sfx : List Char) (hT : 0 < T)
    (hT53 : T < 2 ^ 53) (hs : sfx = [] ∨ sfx = ['%'] ∨ sfx = ['+']) :
    ∃ trace last,
      (∀ fuel, 102 ≤ fuel → animateCounter fuel (Nat.toDigits 10 T ++ sfx) = some trace) ∧
      trace.getLast? = some last ∧
      last.textContent =
        Nat.toDigits 10 T ++ (if '%' ∈ Nat.toDigits 10 T ++ sfx then ['%'] else ['+']) ∧
      ∀ c ∈ trace,
        suffixOf c.textContent = suffixOf (Nat.toDigits 10 T ++ sfx) ∧
        ∃ x, c.textContent = numToString x ++ suffixOf (Nat.toDigits 10 T ++ sfx) := by
  have hsfx : takeDigits 10 sfx = [] := by
    rcases hs with h | h | h <;> subst h <;> rfl
  have hparse : parseInt (Nat.toDigits 10 T ++ sfx) = IntNum.int false T := by
    rw [parseInt_toDigits T hT sfx hsfx]
    have hlt : T < 2 ^ 1024 :=
      lt_of_lt_of_le hT53 (Nat.pow_le_pow_right (by decide) (by decide))
    simp only [IntNum.ofNat, roundNearest_small T hT53, if_pos hlt]
  have hstart : startCounter (Nat.toDigits 10 T ++ sfx) =
      { textContent := Nat.toDigits 10 T ++ sfx, target := IntNum.int false T,
        increment := Num.fin false (roundNearest (T * scale) 100),
        current := Num.fin false 0 } := by
    simp only [startCounter, hparse, IntNum.toNum, Num.divHundred]
  obtain ⟨trace, last, hrun, hlast, htext, hall⟩ :=
    runFrames_converges T hT hT53 (Nat.toDigits 10 T ++ sfx) 101 0 rfl
      (Nat.toDigits 10 T ++ sfx) 0 rfl (by simp)
  refine ⟨trace, last, ?_, hlast, htext, hall⟩
  intro fuel hf
  simp only [animateCounter, hstart]
  exact hrun fuel hf

/-- Witness for C3 (amended): initial text "150+" ends at "150+". -/
theorem C3_counter_final_text_below_2_53_witness :
    Nat.toDigits 10 150 ++ ['+'] = ['1', '5', '0', '+'] ∧
    ∃ trace last,
      (∀ fuel, 102 ≤ fuel → animateCounter fuel (Nat.toDigits 10 150 ++ ['+']) = some trace) ∧
      trace.getLast? = some last ∧
      last.textContent =
        Nat.toDigits 10 150 ++ (if '%' ∈ Nat.toDigits 10 150 ++ ['+'] then ['%'] else ['+']) ∧
      ∀ c ∈ trace,
        suffixOf c.textContent = suffixOf (Nat.toDigits 10 150 ++ ['+']) ∧
        ∃ x, c.textContent = numToString x ++ suffixOf (Nat.toDigits 10 150 ++ ['+']) :=
  ⟨by decide,
    C3_counter_final_text_below_2_53 150 ['+'] (by decide) (by decide) (Or.inr (Or.inr rfl))⟩

/-- C4 (code at the failing input): with the text "98%" the additions are
rounded doubles; after frame 100 `current` is just above 98, so that frame
shows `Math.ceil(current) = 99`, above the target, and frame 101 then snaps
back to "98%": the displayed integers exceed the target and are not
non-decreasing. -/
theorem C4_counter_overshoots_at_98 :
    framesFrom 102 ['9', '8', '%'] 98 =
      some (101,
        [(['9', '8', '%'], IntNum.int false 98),
         (['9', '9', '%'], IntNum.int false 99),
         (['9', '8', '%'], IntNum.int false 99)]) := by
  decide!

/-- C5: with a readable store holding s (absent, "light" or "dark") and the
media query reporting b, `init()` and the inline pre-paint step both leave
`data-theme` equal to s when s is present, else "dark" if b and "light" if
not; the pre-paint step gives the same value when it runs after `init()`. -/
theorem C5_startup_theme (e : ThemeEnv) (s : Option String) (b : Bool)
    (hr : e.storage.canRead = true) (hs : e.storage.item = s)
    (hm : e.matchMedia = some b)
    (hv : s = none ∨ s = some "light" ∨ s = some "dark") :
    (init e).state.dataTheme = some (s.getD (if b then "dark" else "light")) ∧
    (∃ e', prePaint e = Outcome.ok e' ∧
      e'.dataTheme = some (s.getD (if b then "dark" else "light"))) ∧
    (∃ e', prePaint (init e).state = Outcome.ok e' ∧
      e'.dataTheme = some (s.getD (if b then "dark" else "light"))) := by
  obtain ⟨dt, tr, ht, al, hi, im, isn, ⟨cr, cw, it⟩, mm, ml, cwd, w, wn, tm⟩ := e
  simp only at hr hs hm
  subst hr hs hm
  rcases hv with h | h | h <;> subst h <;>
    cases b <;> cases hi <;> cases ht <;> cases cw <;> cases ml <;>
    simp [init, prePaint, getSavedTheme, getSystemPreference, setTheme, updateIcon,
      watchSystemPreference, jsOr, Storage.getItem, Storage.setItem, Outcome.andThen,
      Outcome.state]

/-- Witness for C5: nothing stored and system dark gives "dark". -/
theorem C5_startup_theme_witness :
    (init { ThemeEnv.blank with matchMedia := some true }).state.dataTheme =
      some ((none : Option String).getD (if true then "dark" else "light")) ∧
    (∃ e', prePaint { ThemeEnv.blank with matchMedia := some true } = Outcome.ok e' ∧
      e'.dataTheme = some ((none : Option String).getD (if true then "dark" else "light"))) ∧
    (∃ e', prePaint (init { ThemeEnv.blank with matchMedia := some true }).state =
        Outcome.ok e' ∧
      e'.dataTheme = some ((none : Option String).getD (if true then "dark" else "light"))) :=
  C5_startup_theme { ThemeEnv.blank with matchMedia := some true } none true rfl rfl rfl
    (Or.inl rfl)

/-- C6 (as stated) fails when the store rejects the write: from "light",
`toggleTheme()` sets `data-theme` to "dark" without raising, but nothing is
stored under `preferred-theme`. -/
theorem C6_counterexample_write_fails :
    readOnlyStoreEnv.dataTheme = some "light" ∧
    (toggleTheme readOnlyStoreEnv).raised = false ∧
    (toggleTheme readOnlyStoreEnv).state.dataTheme = some "dark" ∧
    (toggleTheme readOnlyStoreEnv).state.storage.item = none := by
  decide

/-- C6 (amended): from `data-theme` "light" or "dark", `toggleTheme()` sets
`data-theme` to the other value and two consecutive toggles restore the
starting value. On a page where the toggle control exists whenever the icon
does, the call completes without raising; if the store accepts the write the
new value is stored and no warning is logged; if the write throws the stored
value is left unchanged and one warning is logged. -/
theorem C6_toggle_flips_persists_or_warns (e : ThemeEnv)
    (hd : e.dataTheme = some "light" ∨ e.dataTheme = some "dark") :
    (toggleTheme e).state.dataTheme =
      some (if e.dataTheme = some "light" then "dark" else "light") ∧
    (toggleTheme (toggleTheme e).state).state.dataTheme = e.dataTheme ∧
    ((e.hasIcon = true → e.hasToggle = true) →
      (toggleTheme e).raised = false ∧
      (e.storage.canWrite = true →
        (toggleTheme e).state.storage.item = (toggleTheme e).state.dataTheme ∧
        (toggleTheme e).state.warnings = e.warnings) ∧
      (e.storage.canWrite = false →
        (toggleTheme e).state.storage.item = e.storage.item ∧
        (toggleTheme e).state.warnings =
          e.warnings ++ ["Could not save theme preference:"])) := by
  obtain ⟨dt, tr, ht, al, hi, im, isn, ⟨cr, cw, it⟩, mm, ml, cwd, w, wn, tm⟩ := e
  simp only at hd
  rcases hd with h | h <;> subst h <;>
    cases hi <;> cases ht <;> cases cw <;>
    simp [toggleTheme, setTheme, updateIcon, jsOr, Storage.setItem, Outcome.andThen,
      Outcome.state, Outcome.raised]

/-- Witness for C6 (amended): a toggle from "light" with a working store, and
one with a store that rejects writes. -/
theorem C6_toggle_flips_persists_or_warns_witness :
    (toggleTheme lightThemeEnv).state.dataTheme = some "dark" ∧
    (toggleTheme lightThemeEnv).state.storage.item = some "dark" ∧
    (toggleTheme readOnlyStoreEnv).state.warnings = ["Could not save theme preference:"] ∧
    ((toggleTheme lightThemeEnv).state.dataTheme =
      some (if lightThemeEnv.dataTheme = some "light" then "dark" else "light") ∧
    (toggleTheme (toggleTheme lightThemeEnv).state).state.dataTheme =
      lightThemeEnv.dataTheme ∧
    ((lightThemeEnv.hasIcon = true → lightThemeEnv.hasToggle = true) →
      (toggleTheme lightThemeEnv).raised = false ∧
      (lightThemeEnv.storage.canWrite = true →
        (toggleTheme lightThemeEnv).state.storage.item =
          (toggleTheme lightThemeEnv).state.dataTheme ∧
        (toggleTheme lightThemeEnv).state.warnings = lightThemeEnv.warnings) ∧
      (lightThemeEnv.storage.canWrite = false →
        (toggleTheme lightThemeEnv).state.storage.item = lightThemeEnv.storage.item ∧
        (toggleTheme lightThemeEnv).state.warnings =
          lightThemeEnv.warnings ++ ["Could not save theme preference:"]))) :=
  ⟨by decide, by decide, by decide,
    C6_toggle_flips_persists_or_warns lightThemeEnv (Or.inl rfl)⟩

/-- C7 (code at the failing input): on a first visit with nothing stored and a
working store, `init()` itself stores the resolved theme, so the registered
listener finds a stored value and a later system change to dark leaves
`data-theme` at "light", with no user toggle in between. -/
theorem C7_init_persists_system_theme :
    firstVisitEnv.storage.item = none ∧
    (init firstVisitEnv).raised = false ∧
    (init firstVisitEnv).state.watching = true ∧
    (init firstVisitEnv).state.storage.item = some "light" ∧
    (dispatchSystemChange true (init firstVisitEnv).state).state.matchMedia = some true ∧
    (dispatchSystemChange true (init firstVisitEnv).state).state.dataTheme = some "light" := by
  decide

/-- C9 (code at the failing input): when storage throws, `getSavedTheme()`
yields null and `init()` completes with the system theme, but the inline
pre-paint step raises at its unguarded read and sets no `data-theme`. -/
theorem C9_prePaint_throws_without_storage :
    (getSavedTheme noStorageEnv).1 = none ∧
    (init noStorageEnv).raised = false ∧
    (init noStorageEnv).state.dataTheme = some "dark" ∧
    (prePaint noStorageEnv).raised = true ∧
    (prePaint noStorageEnv).state.dataTheme = none := by
  decide

/-- Loading raises exactly when the hamburger trigger or the contact form is
absent; an absent nav menu, navbar or stats section raises nothing at load. -/
theorem loadScript_raised_iff (p : Page) :
    (loadScript p).raised = true ↔ (p.hamburger = none ∨ p.contactForm = false) := by
  obtain ⟨hb, nm, an, nb, cf, rt, ss, fc, sy⟩ := p
  cases hb <;> cases cf <;> cases ss <;>
    simp [loadScript, Outcome.raised]

/-- C8 (code at the failing input): on a page without the hamburger trigger the
first wiring statement dereferences null, so loading raises and nothing at all
is wired; a page without the contact form raises at the submit wiring; a page
without the stats section, whose wiring is guarded, loads without raising. -/
theorem C8_load_throws_without_hamburger :
    pageWithoutHamburger.hamburger = none ∧
    loadScript pageWithoutHamburger = Outcome.threw Wiring.none ∧
    (loadScript pageWithoutContactForm).raised = true ∧
    (loadScript pageWithoutContactForm).state.submit = false ∧
    (loadScript pageWithoutStats).raised = false ∧
    (loadScript pageWithoutStats).state.statsObserved = false := by
  decide

/-- C10: for one submission on a form whose submit control and message
container exist, and for every result of the request, the handler completes
with the submit control enabled and carrying its starting text; on a success
status the success block is shown, the fields are reset and a 10000 ms hide
timer is added; on every other result the failure block is shown, the fields
are unchanged and no timer is added (so a timer is added iff the status is a
success). -/
theorem C10_submit_restores_control (s : FormPage) (r : FetchResult)
    (btn : SubmitBtn) (m : FormMessage)
    (hb : s.submitBtn = some btn) (hm : s.formMessage = some m) :
    ∃ s', submitHandler r s = Outcome.ok s' ∧
      s'.submitBtn = some { textContent := btn.textContent, disabled := false } ∧
      (r = FetchResult.response true →
        s'.fields = s.defaults ∧ s'.hideTimers = s.hideTimers ++ [10000] ∧
        s'.formMessage = some { innerHTML := MessageHtml.success, display := "block" }) ∧
      (r ≠ FetchResult.response true →
        s'.fields = s.fields ∧ s'.hideTimers = s.hideTimers ∧
        s'.formMessage = some { innerHTML := MessageHtml.failure, display := "block" }) ∧
      (s'.hideTimers = s.hideTimers ++ [10000] ↔ r = FetchResult.response true) := by
  obtain ⟨sb, fm, fl, df, tm, dp⟩ := s
  simp only at hb hm
  subst hb hm
  rcases r with ⟨_ | _⟩ | _ <;>
    simp [submitHandler, submitSuccess, submitFailure]

/-- Witness for C10: a rejected request on a filled form. -/
theorem C10_submit_restores_control_witness :
    ∃ s', submitHandler FetchResult.rejected
        { submitBtn := some { textContent := "Enviar", disabled := false },
          formMessage := some { innerHTML := MessageHtml.unset, display := "none" },
          fields := ["Ana", "hola"], defaults := ["", ""], hideTimers := [],
          defaultPrevented := false } = Outcome.ok s' ∧
      s'.submitBtn = some { textContent := "Enviar", disabled := false } ∧
      (FetchResult.rejected = FetchResult.response true →
        s'.fields = ["", ""] ∧ s'.hideTimers = [] ++ [10000] ∧
        s'.formMessage = some { innerHTML := MessageHtml.success, display := "block" }) ∧
      (FetchResult.rejected ≠ FetchResult.response true →
        s'.fields = ["Ana", "hola"] ∧ s'.hideTimers = [] ∧
        s'.formMessage = some { innerHTML := MessageHtml.failure, display := "block" }) ∧
      (s'.hideTimers = [] ++ [10000] ↔ FetchResult.rejected = FetchResult.response true) :=
  C10_submit_restores_control
    { submitBtn := some { textContent := "Enviar", disabled := false },
      formMessage := some { innerHTML := MessageHtml.unset, display := "none" },
      fields := ["Ana", "hola"], defaults := ["", ""], hideTimers := [],
      defaultPrevented := false }
    FetchResult.rejected { textContent := "Enviar", disabled := false }
    { innerHTML := MessageHtml.unset, display := "none" } rfl rfl

end OnlineSystem
